import Mathlib

/-!
# Verification of `scripts/transfer_headlines.py`

A shallow embedding of the headline-transfer job. The external world (the two
Airtable tables) is a `World` value; network write calls are recorded in a
trace of `ApiCall`s; console prints are abstracted as `Out` events; network
faults are injected through a `Faults` record (an id listed in
`createFailIds` / `updateFailIds` makes the corresponding per-row call raise,
the two `fetch*Fails` flags make the corresponding table read raise, and
`discordFails` makes the webhook post raise).

The Airtable server itself is modeled at two levels:
* `airtable_get` works on the paginated wire format (a list of pages, each of
  which either errors or yields records), mirroring the `while True` loop of
  the Python helper;
* inside `main` the flattened results of the two reads are modeled directly
  from the `World` (`fetchApproved`, `get_existing_headline_ids`), with the
  server-side `publish_date` sort treated as part of the external service:
  rows arrive in the order the server returns them.
-/

namespace TransferHeadlines

/-- Fields of a Headline Queue record. Optional fields model keys that may be
absent from the Airtable `fields` dict (Python reads them with `.get`). -/
structure HeadlineFields where
  headline : Option String
  article_prompt : Option String
  seo_keyword : Option String
  angle : Option String
  subject : Option String
  batch_id : Option String
  target_word_count : Option Int
  priority_order : Option Int
  status : String
  publish_date : Option String
  articles_record_id : Option String
deriving Repr, DecidableEq

/-- A Headline Queue row: Airtable record id plus fields. -/
structure HeadlineRec where
  id : String
  fields : HeadlineFields
deriving Repr, DecidableEq

/-- Fields of an Articles record, as written by the transfer job
(lines 225-236 of the script). All keys are always sent, so none is optional. -/
structure ArticleFields where
  article_title : String
  prompt : String
  seo_keyword : String
  angle : String
  subject : String
  batch_id : String
  target_word_count : Int
  headline_queue_id : String
  pipeline_status : String
  priority_order : Int
deriving Repr, DecidableEq

/-- An Articles row: Airtable record id plus fields. -/
structure ArticleRec where
  id : String
  fields : ArticleFields
deriving Repr, DecidableEq

/-- The external state: the two tables, plus a counter from which the server
mints fresh record ids for created Articles. -/
structure World where
  headlines : List HeadlineRec
  articles : List ArticleRec
  counter : Nat
deriving Repr, DecidableEq

/-- Fault injection for the network calls made by one run. -/
structure Faults where
  fetchHeadlinesFails : Bool
  fetchArticlesFails : Bool
  createFailIds : List String
  updateFailIds : List String
  discordFails : Bool
deriving Repr, DecidableEq

/-- Process configuration: the `--dry-run` flag and the optional
`DISCORD_WEBHOOK_NOTIFICATIONS` target. -/
structure Config where
  dryRun : Bool
  discordWebhook : Option String
deriving Repr, DecidableEq

/-- One network call issued (or attempted) by the job. -/
inductive ApiCall where
  | getHeadlines : ApiCall
  | getArticles : ApiCall
  | createArticle (fields : ArticleFields) : ApiCall
  | updateHeadline (recId : String) (newStatus : String) (aid : Option String) : ApiCall
  | postDiscord (message : String) : ApiCall
deriving Repr, DecidableEq

/-- Whether a call is a table write (Article create or Headline update). -/
def ApiCall.isWrite : ApiCall → Bool
  | .createArticle _ => true
  | .updateHeadline _ _ _ => true
  | _ => false

/-- Whether a call is the Discord webhook post. -/
def ApiCall.isPost : ApiCall → Bool
  | .postDiscord _ => true
  | _ => false

/-- Console output events, abstracting the script's prints. -/
inductive Out where
  | noApproved : Out
  | foundApproved (n : Nat) : Out
  | skippedDuplicates (n : Nat) : Out
  | nothingToDo : Out
  | updatedStuck (n : Nat) : Out
  | dryRunPreview (n : Nat) : Out
  | rowTransferred (title : String) : Out
  | rowError (title : String) : Out
  | summaryTransferred (n : Nat) : Out
  | summarySkipped (n : Nat) : Out
  | discordSent : Out
  | discordFailed : Out
  | discordUnconfigured : Out
deriving Repr, DecidableEq

/-- The observable outcome of one invocation of `main`: whether it ran to
completion (`ok = false` means an uncaught exception aborted it), the final
table state, the Articles accumulated in `created_articles`, the call trace,
the output events, and the number of caught per-row errors. -/
structure RunResult where
  ok : Bool
  world : World
  created : List ArticleRec
  calls : List ApiCall
  outs : List Out
  errs : Nat
deriving Repr, DecidableEq

/-- `airtable_get` at the wire level: the server's answer is a list of pages,
each either an error or a batch of records; the loop follows the offset
cursor, accumulating records, and `raise_for_status` propagates the first
page error (lines 63-81). -/
def airtable_get {α : Type} : List (Except String (List α)) → Except String (List α)
  | [] => Except.ok []
  | p :: rest =>
    match p with
    | Except.error e => Except.error e
    | Except.ok recs =>
      match airtable_get rest with
      | Except.error e => Except.error e
      | Except.ok more => Except.ok (recs ++ more)

/-- Fresh Article record id minted by the server. -/
def freshId (n : Nat) : String := "recArt" ++ toString n

/-- `airtable_create_record` on the Articles table: the server appends a row
with a fresh id and returns the created record (lines 84-92). -/
def airtable_create_record (w : World) (fs : ArticleFields) : ArticleRec × World :=
  let a : ArticleRec := ⟨freshId w.counter, fs⟩
  (a, ⟨w.headlines, w.articles ++ [a], w.counter + 1⟩)

/-- The patch applied to one headline row: set `status`; set
`articles_record_id` only when the patch carries it. -/
def applyHeadlineUpdate (h : HeadlineRec) (st : String) (aid : Option String) : HeadlineRec :=
  ⟨h.id,
    { h.fields with
      status := st
      articles_record_id :=
        match aid with
        | none => h.fields.articles_record_id
        | some x => some x }⟩

/-- `airtable_update_record` on the Headline table: patch every row whose id
matches (lines 95-103). -/
def airtable_update_record (w : World) (recId : String) (st : String)
    (aid : Option String) : World :=
  ⟨w.headlines.map (fun h => if h.id = recId then applyHeadlineUpdate h st aid else h),
    w.articles, w.counter⟩

/-- The server's answer to the Step-1 read: rows with `status = "approved"`,
in the order the server returns them (the `publish_date` sort is applied
server-side and is orthogonal to the verified properties). -/
def fetchApproved (w : World) : List HeadlineRec :=
  w.headlines.filter (fun h => h.fields.status == "approved")

/-- The non-empty `headline_queue_id` values of a list of Articles rows. -/
def hqIds (arts : List ArticleRec) : List String :=
  (arts.filter (fun a => a.fields.headline_queue_id != "")).map
    (fun a => a.fields.headline_queue_id)

/-- `get_existing_headline_ids`: the de-duplication keys already present in
the Articles table (lines 108-122; the server filter `!= ''` and the
client-side `if hq_id:` both drop empty values). Membership in this list
models membership in the Python `set`. -/
def get_existing_headline_ids (w : World) : List String := hqIds w.articles

/-- The `new_headlines` partition of the fetch (lines 177-183): approved rows
whose id is not yet a de-duplication key. -/
def newHeadlines (w : World) : List HeadlineRec :=
  (fetchApproved w).filter (fun r => !(get_existing_headline_ids w).contains r.id)

/-- The `skipped` partition of the fetch (lines 177-183): approved rows whose
id is already a de-duplication key. -/
def skippedHeadlines (w : World) : List HeadlineRec :=
  (fetchApproved w).filter (fun r => (get_existing_headline_ids w).contains r.id)

/-- The Article fields built from one headline row (lines 225-236), with the
defaults the script supplies through `.get`. -/
def buildArticleFields (rec : HeadlineRec) : ArticleFields :=
  { article_title := rec.fields.headline.getD ""
    prompt := rec.fields.article_prompt.getD ""
    seo_keyword := rec.fields.seo_keyword.getD ""
    angle := rec.fields.angle.getD ""
    subject := rec.fields.subject.getD ""
    batch_id := rec.fields.batch_id.getD ""
    target_word_count := rec.fields.target_word_count.getD 1000
    headline_queue_id := rec.id
    pipeline_status := "queued"
    priority_order := rec.fields.priority_order.getD 1 }

/-- The console name of a headline (`f.get("headline", "(no title)")`). -/
def headlineTitle (rec : HeadlineRec) : String :=
  rec.fields.headline.getD "(no title)"

/-- Result of the Step-3 transfer loop. -/
structure LoopRes where
  world : World
  created : List ArticleRec
  calls : List ApiCall
  outs : List Out
  errs : Nat
deriving Repr, DecidableEq

/-- The Step-3 loop (lines 218-250): per row, create the Article, then
immediately patch the headline; any exception from either call is caught,
counted, and the loop continues with the next row. -/
def transferLoop (f : Faults) : List HeadlineRec → World → LoopRes
  | [], w => ⟨w, [], [], [], 0⟩
  | rec :: rest, w =>
    if f.createFailIds.contains rec.id then
      let r := transferLoop f rest w
      ⟨r.world, r.created, ApiCall.createArticle (buildArticleFields rec) :: r.calls,
        Out.rowError (headlineTitle rec) :: r.outs, r.errs + 1⟩
    else
      let p := airtable_create_record w (buildArticleFields rec)
      if f.updateFailIds.contains rec.id then
        let r := transferLoop f rest p.2
        ⟨r.world, r.created,
          ApiCall.createArticle (buildArticleFields rec) ::
            ApiCall.updateHeadline rec.id "sent_to_news_agent" (some p.1.id) :: r.calls,
          Out.rowError (headlineTitle rec) :: r.outs, r.errs + 1⟩
      else
        let w2 := airtable_update_record p.2 rec.id "sent_to_news_agent" (some p.1.id)
        let r := transferLoop f rest w2
        ⟨r.world, p.1 :: r.created,
          ApiCall.createArticle (buildArticleFields rec) ::
            ApiCall.updateHeadline rec.id "sent_to_news_agent" (some p.1.id) :: r.calls,
          Out.rowTransferred (headlineTitle rec) :: r.outs, r.errs⟩

/-- The stuck-row reconciliation loop (lines 195-199): patch each skipped
row's status. The calls are NOT wrapped in try/except, so the first failure
aborts the whole run (`false` in the first component). -/
def stuckLoop (f : Faults) : List HeadlineRec → World → Bool × World × List ApiCall
  | [], w => (true, w, [])
  | rec :: rest, w =>
    if f.updateFailIds.contains rec.id then
      (false, w, [ApiCall.updateHeadline rec.id "sent_to_news_agent" none])
    else
      let w1 := airtable_update_record w rec.id "sent_to_news_agent" none
      let s := stuckLoop f rest w1
      (s.1, s.2.1, ApiCall.updateHeadline rec.id "sent_to_news_agent" none :: s.2.2)

/-- The Discord message built at lines 267-275. -/
def discordMessage (arts : List ArticleRec) : String :=
  let titles := String.intercalate "\n"
    (arts.map (fun a => "• " ++ a.fields.article_title))
  "**📋 " ++ toString arts.length ++
    " headline(s) transferred to Articles queue**\n\n" ++ titles ++
    "\n\nThe News Agent will write these automatically."

/-- `notify_discord` (lines 127-146): skip when no webhook is configured;
otherwise post, and swallow a failure with a warning. Returns the calls
attempted and the output events. -/
def notify_discord (webhook : Option String) (fails : Bool) (message : String) :
    List ApiCall × List Out :=
  match webhook with
  | none => ([], [Out.discordUnconfigured])
  | some _ =>
    ([ApiCall.postDiscord message], [if fails then Out.discordFailed else Out.discordSent])

/-- `main` (lines 151-275). The branch structure follows the script:
fetch approved rows (abort on read error), early return when none; build the
de-duplication set (abort on read error); partition; when nothing is new,
reconcile stuck rows (skipped in dry-run; an update error aborts); dry-run
preview; otherwise run the transfer loop, print the summary, and send the
notification when at least one Article was created. -/
def main (cfg : Config) (f : Faults) (w : World) : RunResult :=
  if f.fetchHeadlinesFails then
    ⟨false, w, [], [ApiCall.getHeadlines], [], 0⟩
  else if (fetchApproved w).isEmpty then
    ⟨true, w, [], [ApiCall.getHeadlines], [Out.noApproved], 0⟩
  else if f.fetchArticlesFails then
    ⟨false, w, [], [ApiCall.getHeadlines, ApiCall.getArticles],
      [Out.foundApproved (fetchApproved w).length], 0⟩
  else
    let pre := [Out.foundApproved (fetchApproved w).length] ++
      (if (skippedHeadlines w).isEmpty then []
       else [Out.skippedDuplicates (skippedHeadlines w).length])
    if (newHeadlines w).isEmpty then
      if (skippedHeadlines w).isEmpty then
        ⟨true, w, [], [ApiCall.getHeadlines, ApiCall.getArticles],
          pre ++ [Out.nothingToDo], 0⟩
      else if cfg.dryRun then
        ⟨true, w, [], [ApiCall.getHeadlines, ApiCall.getArticles],
          pre ++ [Out.nothingToDo, Out.updatedStuck (skippedHeadlines w).length], 0⟩
      else
        let s := stuckLoop f (skippedHeadlines w) w
        ⟨s.1, s.2.1, [], [ApiCall.getHeadlines, ApiCall.getArticles] ++ s.2.2,
          pre ++ [Out.nothingToDo] ++
            (if s.1 then [Out.updatedStuck (skippedHeadlines w).length] else []), 0⟩
    else if cfg.dryRun then
      ⟨true, w, [], [ApiCall.getHeadlines, ApiCall.getArticles],
        pre ++ [Out.dryRunPreview (newHeadlines w).length], 0⟩
    else
      let r := transferLoop f (newHeadlines w) w
      let nc :=
        if r.created.isEmpty then (([] : List ApiCall), ([] : List Out))
        else notify_discord cfg.discordWebhook f.discordFails (discordMessage r.created)
      ⟨true, r.world, r.created,
        [ApiCall.getHeadlines, ApiCall.getArticles] ++ r.calls ++ nc.1,
        pre ++ r.outs ++ [Out.summaryTransferred r.created.length] ++
          (if (skippedHeadlines w).isEmpty then []
           else [Out.summarySkipped (skippedHeadlines w).length]) ++ nc.2,
        r.errs⟩

/-- All fault flags relevant to table calls are off (the Discord flag is left
free: notification failure never counts as a job fault). -/
def faultFree (f : Faults) : Prop :=
  f.fetchHeadlinesFails = false ∧ f.fetchArticlesFails = false ∧
    f.createFailIds = [] ∧ f.updateFailIds = []

/-- The Articles rows the fault-free transfer loop appends for a list of
headlines, starting from server counter `c`. -/
def mkArticles (c : Nat) : List HeadlineRec → List ArticleRec
  | [] => []
  | rec :: rest => ArticleRec.mk (freshId c) (buildArticleFields rec) :: mkArticles (c + 1) rest

/-- The Articles rows the transfer loop appends under fault injection `f`:
one per row whose create call does not fail (a failing update still leaves
the created Article in the table). -/
def createdArticles (f : Faults) (c : Nat) : List HeadlineRec → List ArticleRec
  | [] => []
  | rec :: rest =>
    if f.createFailIds.contains rec.id then createdArticles f c rest
    else ArticleRec.mk (freshId c) (buildArticleFields rec) :: createdArticles f (c + 1) rest

/-- A sample Headline Queue row, used by the concrete runs evaluated in the
witnesses and counterexamples. -/
def exHeadline (i st : String) : HeadlineRec :=
  ⟨i, { headline := some ("Headline " ++ i), article_prompt := some ("Prompt " ++ i),
        seo_keyword := none, angle := none, subject := none, batch_id := none,
        target_word_count := none, priority_order := none,
        status := st, publish_date := none, articles_record_id := none }⟩

/-- A pre-existing Articles row already referencing headline `i`. -/
def exArticleFor (i : String) : ArticleRec :=
  ⟨"art" ++ i, buildArticleFields (exHeadline i "approved")⟩

def cfgStd : Config := ⟨false, some "hook"⟩

def cfgDry : Config := ⟨true, some "hook"⟩

def ffNoFault : Faults := ⟨false, false, [], [], false⟩

def fUpdA : Faults := ⟨false, false, [], ["A"], false⟩

def fCreateA : Faults := ⟨false, false, ["A"], [], false⟩

def fFetchH : Faults := ⟨true, false, [], [], false⟩

def fFetchA : Faults := ⟨false, true, [], [], false⟩

def wOne : World := ⟨[exHeadline "A" "approved"], [], 0⟩

def wTwoNew : World := ⟨[exHeadline "A" "approved", exHeadline "B" "approved"], [], 0⟩

def wStuck2 : World := ⟨[exHeadline "A" "approved", exHeadline "B" "approved"],
  [exArticleFor "A", exArticleFor "B"], 0⟩

def wMix : World := ⟨[exHeadline "A" "approved", exHeadline "B" "approved"],
  [exArticleFor "A"], 0⟩

def wNoApproved : World := ⟨[exHeadline "A" "draft"], [], 0⟩

/- ### Basic lemmas about the two record-level calls -/

theorem contains_iff (l : List String) (a : String) : l.contains a = true ↔ a ∈ l := by
  simp [List.contains, List.elem_iff]

@[simp] theorem update_articles (w : World) (i st : String) (aid : Option String) :
    (airtable_update_record w i st aid).articles = w.articles := rfl

@[simp] theorem update_counter (w : World) (i st : String) (aid : Option String) :
    (airtable_update_record w i st aid).counter = w.counter := rfl

@[simp] theorem create_snd_headlines (w : World) (fs : ArticleFields) :
    (airtable_create_record w fs).2.headlines = w.headlines := rfl

@[simp] theorem create_snd_articles (w : World) (fs : ArticleFields) :
    (airtable_create_record w fs).2.articles = w.articles ++ [⟨freshId w.counter, fs⟩] := rfl

@[simp] theorem create_snd_counter (w : World) (fs : ArticleFields) :
    (airtable_create_record w fs).2.counter = w.counter + 1 := rfl

@[simp] theorem create_fst (w : World) (fs : ArticleFields) :
    (airtable_create_record w fs).1 = ⟨freshId w.counter, fs⟩ := rfl

@[simp] theorem applyHeadlineUpdate_id (h : HeadlineRec) (st : String) (aid : Option String) :
    (applyHeadlineUpdate h st aid).id = h.id := rfl

@[simp] theorem buildArticleFields_hq (rec : HeadlineRec) :
    (buildArticleFields rec).headline_queue_id = rec.id := rfl

/-- Updating never changes the list of headline record ids. -/
theorem update_headlines_map_id (w : World) (i st : String) (aid : Option String) :
    (airtable_update_record w i st aid).headlines.map HeadlineRec.id =
      w.headlines.map HeadlineRec.id := by
  simp only [airtable_update_record, List.map_map]
  refine List.map_congr_left (fun h _ => ?_)
  by_cases hid : h.id = i <;> simp [hid]

/-- Every headline in the updated world either carries the new status or is an
untouched row of the old world with a different id. -/
theorem update_mem_cases (w : World) (i st : String) (aid : Option String)
    (h : HeadlineRec) (hmem : h ∈ (airtable_update_record w i st aid).headlines) :
    h.fields.status = st ∨ (h ∈ w.headlines ∧ h.id ≠ i) := by
  simp only [airtable_update_record] at hmem
  obtain ⟨g, hg, hgh⟩ := List.mem_map.mp hmem
  by_cases hid : g.id = i
  · left; rw [if_pos hid] at hgh; rw [← hgh]; rfl
  · right; rw [if_neg hid] at hgh; exact ⟨hgh ▸ hg, hgh ▸ hid⟩

/-- After an update, every row with the patched id carries the new status, and
the new back-reference when the patch carries one. -/
theorem update_sets_matching (w : World) (i st : String) (aid : Option String)
    (h : HeadlineRec) (hmem : h ∈ (airtable_update_record w i st aid).headlines)
    (hid : h.id = i) :
    h.fields.status = st ∧ (∀ x, aid = some x → h.fields.articles_record_id = some x) := by
  simp only [airtable_update_record] at hmem
  obtain ⟨g, hg, hgh⟩ := List.mem_map.mp hmem
  by_cases hgi : g.id = i
  · rw [if_pos hgi] at hgh
    refine ⟨by rw [← hgh]; rfl, fun x hx => ?_⟩
    rw [← hgh]; simp [applyHeadlineUpdate, hx]
  · rw [if_neg hgi] at hgh; exact absurd (hgh ▸ hid) hgi

/-- A row whose status already is the patched status keeps it through any
update that patches to the same status. -/
theorem update_preserves_status (w : World) (i st : String) (aid : Option String)
    (x : String) (hall : ∀ h ∈ w.headlines, h.id = x → h.fields.status = st)
    (h : HeadlineRec) (hmem : h ∈ (airtable_update_record w i st aid).headlines)
    (hid : h.id = x) : h.fields.status = st := by
  simp only [airtable_update_record] at hmem
  obtain ⟨g, hg, hgh⟩ := List.mem_map.mp hmem
  by_cases hgi : g.id = i
  · rw [if_pos hgi] at hgh; rw [← hgh]; rfl
  · rw [if_neg hgi] at hgh; exact hall h (hgh ▸ hg) hid

/-- Updating a row with id `i ≠ x` leaves the sublist of rows with id `x`
untouched. -/
theorem update_filter_other (w : World) (i st : String) (aid : Option String)
    (x : String) (hix : i ≠ x) :
    (airtable_update_record w i st aid).headlines.filter (fun h => h.id == x) =
      w.headlines.filter (fun h => h.id == x) := by
  simp only [airtable_update_record]
  induction w.headlines with
  | nil => rfl
  | cons g rest ih =>
    by_cases hgi : g.id = i
    · have hgx : (g.id == x) = false := by
        simp [hgi]; exact fun hc => hix (hc ▸ rfl)
      simp only [List.map_cons, List.filter_cons, if_pos hgi, applyHeadlineUpdate_id, hgx]
      simpa [hgx] using ih
    · simp only [List.map_cons, List.filter_cons, if_neg hgi]
      by_cases hgx : g.id = x <;> simp [hgx, ih]

/- ### Lemmas about the transfer loop -/

/-- The transfer loop only appends to the Articles table. -/
theorem transferLoop_articles (f : Faults) (recs : List HeadlineRec) (w : World) :
    (transferLoop f recs w).world.articles =
      w.articles ++ createdArticles f w.counter recs := by
  induction recs generalizing w with
  | nil => simp [transferLoop, createdArticles]
  | cons rec rest ih =>
    by_cases hc : rec.id ∈ f.createFailIds
    · simp [transferLoop, createdArticles, hc, ih]
    · by_cases hu : rec.id ∈ f.updateFailIds <;>
        simp [transferLoop, createdArticles, hc, hu, ih, List.append_assoc]

/-- The transfer loop never changes the list of headline record ids. -/
theorem transferLoop_map_id (f : Faults) (recs : List HeadlineRec) (w : World) :
    (transferLoop f recs w).world.headlines.map HeadlineRec.id =
      w.headlines.map HeadlineRec.id := by
  induction recs generalizing w with
  | nil => simp [transferLoop]
  | cons rec rest ih =>
    by_cases hc : rec.id ∈ f.createFailIds
    · simp [transferLoop, hc, ih]
    · by_cases hu : rec.id ∈ f.updateFailIds
      · simp [transferLoop, hc, hu, ih]
      · simp [transferLoop, hc, hu, ih, update_headlines_map_id]

/-- Rows whose id is processed by no iteration of the transfer loop are left
untouched. -/
theorem transferLoop_filter_other (f : Faults) (recs : List HeadlineRec) (w : World)
    (x : String) (hx : ∀ r ∈ recs, r.id ≠ x) :
    (transferLoop f recs w).world.headlines.filter (fun h => h.id == x) =
      w.headlines.filter (fun h => h.id == x) := by
  induction recs generalizing w with
  | nil => rfl
  | cons rec rest ih =>
    have hrec : rec.id ≠ x := hx rec (List.mem_cons_self rec rest)
    have hrest : ∀ r ∈ rest, r.id ≠ x := fun r hr => hx r (List.mem_cons_of_mem rec hr)
    by_cases hc : rec.id ∈ f.createFailIds
    · simp [transferLoop, hc, ih _ hrest]
    · by_cases hu : rec.id ∈ f.updateFailIds
      · simp [transferLoop, hc, hu, ih _ hrest]
      · simp [transferLoop, hc, hu, ih _ hrest, update_filter_other _ _ _ _ _ hrec]

/-- In a fault-free transfer loop, every resulting headline either carries the
transferred status or is an untouched input row none of whose iterations
processed its id. -/
theorem transferLoop_status_cases (f : Faults) (recs : List HeadlineRec) (w : World)
    (hcf : f.createFailIds = []) (huf : f.updateFailIds = [])
    (h : HeadlineRec) (hmem : h ∈ (transferLoop f recs w).world.headlines) :
    h.fields.status = "sent_to_news_agent" ∨
      (h ∈ w.headlines ∧ ∀ r ∈ recs, h.id ≠ r.id) := by
  induction recs generalizing w with
  | nil =>
    simp only [transferLoop] at hmem
    exact Or.inr ⟨hmem, by simp⟩
  | cons rec rest ih =>
    simp only [transferLoop, hcf, huf, List.contains_nil, Bool.false_eq_true,
      if_false] at hmem
    rcases ih _ hmem with hs | ⟨hmem2, hrest⟩
    · exact Or.inl hs
    · rcases update_mem_cases _ _ _ _ _ hmem2 with hs | ⟨hmem3, hne⟩
      · exact Or.inl hs
      · refine Or.inr ⟨by simpa using hmem3, fun r hr => ?_⟩
        rcases List.mem_cons.mp hr with rfl | hr2
        · exact hne
        · exact hrest r hr2

/-- The caught-error count of the transfer loop: one per row whose create or
update call fails. -/
theorem transferLoop_errs (f : Faults) (recs : List HeadlineRec) (w : World) :
    (transferLoop f recs w).errs =
      (recs.filter (fun r =>
        f.createFailIds.contains r.id || f.updateFailIds.contains r.id)).length := by
  induction recs generalizing w with
  | nil => simp [transferLoop]
  | cons rec rest ih =>
    by_cases hc : rec.id ∈ f.createFailIds
    · simp [transferLoop, List.filter_cons, hc, ih]
    · by_cases hu : rec.id ∈ f.updateFailIds <;>
        simp [transferLoop, List.filter_cons, hc, hu, ih]

/-- The rows accumulated in `created_articles`: one per row whose create and
update calls both succeed. -/
theorem transferLoop_created_length (f : Faults) (recs : List HeadlineRec) (w : World) :
    (transferLoop f recs w).created.length =
      (recs.filter (fun r =>
        !f.createFailIds.contains r.id && !f.updateFailIds.contains r.id)).length := by
  induction recs generalizing w with
  | nil => simp [transferLoop]
  | cons rec rest ih =>
    by_cases hc : rec.id ∈ f.createFailIds
    · simp [transferLoop, List.filter_cons, hc, ih]
    · by_cases hu : rec.id ∈ f.updateFailIds <;>
        simp [transferLoop, List.filter_cons, hc, hu, ih]

/-- The transfer loop issues no Discord post. -/
theorem transferLoop_no_post (f : Faults) (recs : List HeadlineRec) (w : World) :
    ∀ c ∈ (transferLoop f recs w).calls, c.isPost = false := by
  induction recs generalizing w with
  | nil => simp [transferLoop]
  | cons rec rest ih =>
    by_cases h1 : rec.id ∈ f.createFailIds
    · intro c hc
      simp only [transferLoop] at hc
      simp [h1] at hc
      rcases hc with rfl | hc
      · rfl
      · exact ih _ _ hc
    · by_cases h2 : rec.id ∈ f.updateFailIds <;>
      · intro c hc
        simp only [transferLoop] at hc
        simp [h1, h2] at hc
        rcases hc with rfl | rfl | hc
        · rfl
        · rfl
        · exact ih _ _ hc

/-- The transfer loop ignores the Discord fault flag. -/
theorem transferLoop_discord_irrel (hf af : Bool) (cf uf : List String)
    (d1 d2 : Bool) (recs : List HeadlineRec) (w : World) :
    transferLoop ⟨hf, af, cf, uf, d1⟩ recs w = transferLoop ⟨hf, af, cf, uf, d2⟩ recs w := by
  induction recs generalizing w with
  | nil => rfl
  | cons rec rest ih =>
    by_cases h1 : rec.id ∈ cf
    · simp [transferLoop, h1, ih]
    · by_cases h2 : rec.id ∈ uf <;> simp [transferLoop, h1, h2, ih]

/- ### Lemmas about the stuck-row reconciliation loop -/

/-- The stuck loop never touches the Articles table. -/
theorem stuckLoop_articles (f : Faults) (recs : List HeadlineRec) (w : World) :
    (stuckLoop f recs w).2.1.articles = w.articles := by
  induction recs generalizing w with
  | nil => rfl
  | cons rec rest ih =>
    by_cases h2 : rec.id ∈ f.updateFailIds <;> simp [stuckLoop, h2, ih]

/-- The stuck loop never changes the server counter. -/
theorem stuckLoop_counter (f : Faults) (recs : List HeadlineRec) (w : World) :
    (stuckLoop f recs w).2.1.counter = w.counter := by
  induction recs generalizing w with
  | nil => rfl
  | cons rec rest ih =>
    by_cases h2 : rec.id ∈ f.updateFailIds <;> simp [stuckLoop, h2, ih]

/-- With no update faults the stuck loop runs to completion. -/
theorem stuckLoop_ok (f : Faults) (recs : List HeadlineRec) (w : World)
    (huf : f.updateFailIds = []) : (stuckLoop f recs w).1 = true := by
  induction recs generalizing w with
  | nil => rfl
  | cons rec rest ih => simp [stuckLoop, huf, ih]

/-- The stuck loop ignores the Discord fault flag. -/
theorem stuckLoop_discord_irrel (hf af : Bool) (cf uf : List String)
    (d1 d2 : Bool) (recs : List HeadlineRec) (w : World) :
    stuckLoop ⟨hf, af, cf, uf, d1⟩ recs w = stuckLoop ⟨hf, af, cf, uf, d2⟩ recs w := by
  induction recs generalizing w with
  | nil => rfl
  | cons rec rest ih =>
    by_cases h2 : rec.id ∈ uf <;> simp [stuckLoop, h2, ih]

/-- The stuck loop issues no Discord post. -/
theorem stuckLoop_no_post (f : Faults) (recs : List HeadlineRec) (w : World) :
    ∀ c ∈ (stuckLoop f recs w).2.2, c.isPost = false := by
  induction recs generalizing w with
  | nil => simp [stuckLoop]
  | cons rec rest ih =>
    by_cases h2 : rec.id ∈ f.updateFailIds
    · intro c hc
      simp [stuckLoop, h2] at hc
      subst hc; rfl
    · intro c hc
      simp [stuckLoop, h2] at hc
      rcases hc with rfl | hc
      · rfl
      · exact ih _ _ hc

/-- In a fault-free stuck loop, every resulting headline either carries the
repaired status or is an untouched row whose id no iteration processed. -/
theorem stuckLoop_status_cases (f : Faults) (recs : List HeadlineRec) (w : World)
    (huf : f.updateFailIds = [])
    (h : HeadlineRec) (hmem : h ∈ (stuckLoop f recs w).2.1.headlines) :
    h.fields.status = "sent_to_news_agent" ∨
      (h ∈ w.headlines ∧ ∀ r ∈ recs, h.id ≠ r.id) := by
  induction recs generalizing w with
  | nil =>
    simp only [stuckLoop] at hmem
    exact Or.inr ⟨hmem, by simp⟩
  | cons rec rest ih =>
    simp only [stuckLoop, huf, List.contains_nil, Bool.false_eq_true, if_false] at hmem
    rcases ih _ hmem with hs | ⟨hmem2, hrest⟩
    · exact Or.inl hs
    · rcases update_mem_cases _ _ _ _ _ hmem2 with hs | ⟨hmem3, hne⟩
      · exact Or.inl hs
      · refine Or.inr ⟨hmem3, fun r hr => ?_⟩
        rcases List.mem_cons.mp hr with rfl | hr2
        · exact hne
        · exact hrest r hr2

/-- A status-repair invariant survives every iteration of the stuck loop. -/
theorem stuckLoop_preserves_sent (f : Faults) (recs : List HeadlineRec) (w : World)
    (x : String) (hall : ∀ h ∈ w.headlines, h.id = x → h.fields.status = "sent_to_news_agent") :
    ∀ h ∈ (stuckLoop f recs w).2.1.headlines, h.id = x →
      h.fields.status = "sent_to_news_agent" := by
  induction recs generalizing w with
  | nil => exact hall
  | cons rec rest ih =>
    by_cases h2 : rec.id ∈ f.updateFailIds
    · simpa [stuckLoop, h2] using hall
    · have hcc : ¬(f.updateFailIds.contains rec.id = true) :=
        fun hx => h2 ((contains_iff _ _).mp hx)
      simp only [stuckLoop, if_neg hcc]
      exact ih _ (fun h hm hid => update_preserves_status _ _ _ _ _ hall h hm hid)

/-- After a fault-free stuck loop, every headline whose id was in the skipped
list carries the repaired status. -/
theorem stuckLoop_repairs (f : Faults) (recs : List HeadlineRec) (w : World)
    (huf : f.updateFailIds = []) (rec : HeadlineRec) (hrec : rec ∈ recs) :
    ∀ h ∈ (stuckLoop f recs w).2.1.headlines, h.id = rec.id →
      h.fields.status = "sent_to_news_agent" := by
  induction recs generalizing w with
  | nil => exact absurd hrec (List.not_mem_nil rec)
  | cons r0 rest ih =>
    simp only [stuckLoop, huf, List.contains_nil, Bool.false_eq_true, if_false]
    rcases List.mem_cons.mp hrec with rfl | hrec2
    · refine stuckLoop_preserves_sent _ _ _ _ (fun h hm hid => ?_)
      exact (update_sets_matching _ _ _ _ _ hm hid).1
    · exact ih _ hrec2

/- ### Helper lemmas about filters, ids and the created-article lists -/

theorem hqIds_append (l1 l2 : List ArticleRec) :
    hqIds (l1 ++ l2) = hqIds l1 ++ hqIds l2 := by
  simp [hqIds]

theorem createdArticles_ff (f : Faults) (hcf : f.createFailIds = []) (c : Nat)
    (recs : List HeadlineRec) : createdArticles f c recs = mkArticles c recs := by
  induction recs generalizing c with
  | nil => rfl
  | cons rec rest ih => simp [createdArticles, mkArticles, hcf, ih]

/-- The Articles rows minted for a batch, restricted to one de-duplication
key, carry exactly the fields built from the rows with that id. -/
theorem mkArticles_filter_map (c : Nat) (rs : List HeadlineRec) (x : String) :
    ((mkArticles c rs).filter (fun a => a.fields.headline_queue_id == x)).map
        ArticleRec.fields =
      (rs.filter (fun r => r.id == x)).map buildArticleFields := by
  induction rs generalizing c with
  | nil => rfl
  | cons r rest ih =>
    simp only [mkArticles, List.filter_cons]
    by_cases hx : r.id = x
    · simp [hx, ih]
    · simp [hx, ih]

/-- No Article row is minted for a key no batch row carries. -/
theorem mkArticles_filter_nil (c : Nat) (rs : List HeadlineRec) (x : String)
    (hx : ∀ r ∈ rs, r.id ≠ x) :
    (mkArticles c rs).filter (fun a => a.fields.headline_queue_id == x) = [] := by
  induction rs generalizing c with
  | nil => rfl
  | cons r rest ih =>
    simp only [mkArticles, List.filter_cons]
    have h1 : r.id ≠ x := hx r (List.mem_cons_self r rest)
    simp [h1, ih _ (fun q hq => hx q (List.mem_cons_of_mem _ hq))]

theorem filter_id_nil (l : List HeadlineRec) (x : String)
    (hx : x ∉ l.map HeadlineRec.id) :
    l.filter (fun r => r.id == x) = [] := by
  induction l with
  | nil => rfl
  | cons r rest ih =>
    simp only [List.map_cons, List.mem_cons, not_or] at hx
    have h1 : r.id ≠ x := fun h => hx.1 h.symm
    simp [List.filter_cons, h1, ih hx.2]

/-- In a list of rows with pairwise-distinct ids, filtering by a member's id
yields exactly that member. -/
theorem filter_id_single (l : List HeadlineRec) (rec : HeadlineRec) (hmem : rec ∈ l)
    (hnd : (l.map HeadlineRec.id).Nodup) :
    l.filter (fun r => r.id == rec.id) = [rec] := by
  induction l with
  | nil => cases hmem
  | cons r rest ih =>
    rw [List.map_cons, List.nodup_cons] at hnd
    rcases List.mem_cons.mp hmem with rfl | h2
    · have hrest : rest.filter (fun r => r.id == rec.id) = [] :=
        filter_id_nil rest rec.id hnd.1
      simp [List.filter_cons, hrest]
    · have hne : r.id ≠ rec.id := by
        intro he
        exact hnd.1 (he ▸ List.mem_map_of_mem HeadlineRec.id h2)
      simp [List.filter_cons, hne, ih h2 hnd.2]

/-- Per-row success in the transfer loop, under arbitrary faults on other
rows: if the create and update calls for `rec` both succeed, the final state
holds an Article referencing `rec` and every headline row with `rec`'s id is
marked transferred and points back at that Article. -/
theorem transferLoop_row_success (f : Faults) (rec : HeadlineRec)
    (recs : List HeadlineRec) (w : World) (hmem : rec ∈ recs)
    (hcf : rec.id ∉ f.createFailIds) (huf : rec.id ∉ f.updateFailIds)
    (hnd : (recs.map HeadlineRec.id).Nodup)
    (hpresent : rec.id ∈ w.headlines.map HeadlineRec.id) :
    ∃ aid,
      (∃ a ∈ (transferLoop f recs w).world.articles,
        a.id = aid ∧ a.fields.headline_queue_id = rec.id) ∧
      rec.id ∈ (transferLoop f recs w).world.headlines.map HeadlineRec.id ∧
      (∀ h ∈ (transferLoop f recs w).world.headlines, h.id = rec.id →
        h.fields.status = "sent_to_news_agent" ∧
          h.fields.articles_record_id = some aid) := by
  induction recs generalizing w with
  | nil => cases hmem
  | cons r0 rest ih =>
    rw [List.map_cons, List.nodup_cons] at hnd
    rcases List.mem_cons.mp hmem with rfl | h2
    · -- the row under scrutiny is processed first, successfully
      have hc : ¬(f.createFailIds.contains rec.id = true) :=
        fun hx => hcf ((contains_iff _ _).mp hx)
      have hu : ¬(f.updateFailIds.contains rec.id = true) :=
        fun hx => huf ((contains_iff _ _).mp hx)
      simp only [transferLoop, if_neg hc, if_neg hu]
      refine ⟨freshId w.counter, ?_, ?_, ?_⟩
      · refine ⟨⟨freshId w.counter, buildArticleFields rec⟩, ?_, rfl, rfl⟩
        rw [transferLoop_articles]
        exact List.mem_append_left _ (by simp)
      · rw [transferLoop_map_id, update_headlines_map_id, create_snd_headlines]
        exact hpresent
      · intro h hmem2 hid
        have hothers : ∀ r ∈ rest, r.id ≠ rec.id := by
          intro r hr he
          exact hnd.1 (he ▸ List.mem_map_of_mem HeadlineRec.id hr)
        have hh : h ∈ List.filter (fun g => g.id == rec.id)
            (airtable_update_record (airtable_create_record w (buildArticleFields rec)).2
              rec.id "sent_to_news_agent"
              (some (airtable_create_record w (buildArticleFields rec)).1.id)).headlines := by
          rw [← transferLoop_filter_other f rest _ rec.id hothers]
          exact List.mem_filter.mpr ⟨hmem2, by simp [hid]⟩
        obtain ⟨hh2, -⟩ := List.mem_filter.mp hh
        have hset := update_sets_matching _ rec.id "sent_to_news_agent" _ h hh2 hid
        exact ⟨hset.1, hset.2 _ rfl⟩
    · -- the row under scrutiny sits further down the batch
      by_cases h1 : r0.id ∈ f.createFailIds
      · have hc : f.createFailIds.contains r0.id = true := (contains_iff _ _).mpr h1
        simp only [transferLoop, if_pos hc]
        exact ih _ h2 hnd.2 hpresent
      · have hc : ¬(f.createFailIds.contains r0.id = true) :=
          fun hx => h1 ((contains_iff _ _).mp hx)
        by_cases h2u : r0.id ∈ f.updateFailIds
        · have hu : f.updateFailIds.contains r0.id = true := (contains_iff _ _).mpr h2u
          simp only [transferLoop, if_neg hc, if_pos hu]
          exact ih _ h2 hnd.2 (by simpa using hpresent)
        · have hu : ¬(f.updateFailIds.contains r0.id = true) :=
            fun hx => h2u ((contains_iff _ _).mp hx)
          simp only [transferLoop, if_neg hc, if_neg hu]
          refine ih _ h2 hnd.2 ?_
          rw [update_headlines_map_id, create_snd_headlines]
          exact hpresent

/- ### Membership characterizations of the fetch and the partition -/

theorem mem_fetchApproved (w : World) (rec : HeadlineRec) :
    rec ∈ fetchApproved w ↔ rec ∈ w.headlines ∧ rec.fields.status = "approved" := by
  simp [fetchApproved]

theorem mem_newHeadlines (w : World) (rec : HeadlineRec) :
    rec ∈ newHeadlines w ↔
      rec ∈ fetchApproved w ∧ (get_existing_headline_ids w).contains rec.id = false := by
  simp [newHeadlines, List.mem_filter]

theorem mem_skippedHeadlines (w : World) (rec : HeadlineRec) :
    rec ∈ skippedHeadlines w ↔
      rec ∈ fetchApproved w ∧ (get_existing_headline_ids w).contains rec.id = true := by
  simp [skippedHeadlines, List.mem_filter]

theorem isEmpty_false_of_mem {α : Type} {l : List α} {a : α} (h : a ∈ l) :
    l.isEmpty = false := by
  cases l with
  | nil => cases h
  | cons b bs => rfl

theorem approved_nonempty_of_new (w : World)
    (h : (newHeadlines w).isEmpty = false) : (fetchApproved w).isEmpty = false := by
  cases he : fetchApproved w with
  | nil => rw [newHeadlines, he] at h; cases h
  | cons b bs => rfl

theorem approved_nonempty_of_skipped (w : World)
    (h : (skippedHeadlines w).isEmpty = false) : (fetchApproved w).isEmpty = false := by
  cases he : fetchApproved w with
  | nil => rw [skippedHeadlines, he] at h; cases h
  | cons b bs => rfl

/- ### Branch characterizations of `main` -/

/-- A failing Step-1 read aborts the run before anything else happens. -/
theorem main_fetchfail_eq (cfg : Config) (f : Faults) (w : World)
    (h1 : f.fetchHeadlinesFails = true) :
    main cfg f w = ⟨false, w, [], [ApiCall.getHeadlines], [], 0⟩ := by
  simp [main, h1]

/-- An empty Step-1 fetch returns immediately. -/
theorem main_empty_eq (cfg : Config) (f : Faults) (w : World)
    (h1 : f.fetchHeadlinesFails = false) (h2 : (fetchApproved w).isEmpty = true) :
    main cfg f w = ⟨true, w, [], [ApiCall.getHeadlines], [Out.noApproved], 0⟩ := by
  simp [main, h1, h2]

/-- A failing Step-2 read aborts the run before any write. -/
theorem main_artfail_eq (cfg : Config) (f : Faults) (w : World)
    (h1 : f.fetchHeadlinesFails = false) (h2 : (fetchApproved w).isEmpty = false)
    (h3 : f.fetchArticlesFails = true) :
    main cfg f w = ⟨false, w, [], [ApiCall.getHeadlines, ApiCall.getArticles],
      [Out.foundApproved (fetchApproved w).length], 0⟩ := by
  simp [main, h1, h2, h3]

/-- The transfer branch: final world. -/
theorem main_transfer_world (cfg : Config) (f : Faults) (w : World)
    (h1 : f.fetchHeadlinesFails = false) (h3 : f.fetchArticlesFails = false)
    (h4 : (newHeadlines w).isEmpty = false) (h5 : cfg.dryRun = false) :
    (main cfg f w).world = (transferLoop f (newHeadlines w) w).world := by
  simp [main, h1, approved_nonempty_of_new w h4, h3, h4, h5]

/-- The transfer branch: the run always completes. -/
theorem main_transfer_ok (cfg : Config) (f : Faults) (w : World)
    (h1 : f.fetchHeadlinesFails = false) (h3 : f.fetchArticlesFails = false)
    (h4 : (newHeadlines w).isEmpty = false) (h5 : cfg.dryRun = false) :
    (main cfg f w).ok = true := by
  simp [main, h1, approved_nonempty_of_new w h4, h3, h4, h5]

/-- The transfer branch: `created_articles`. -/
theorem main_transfer_created (cfg : Config) (f : Faults) (w : World)
    (h1 : f.fetchHeadlinesFails = false) (h3 : f.fetchArticlesFails = false)
    (h4 : (newHeadlines w).isEmpty = false) (h5 : cfg.dryRun = false) :
    (main cfg f w).created = (transferLoop f (newHeadlines w) w).created := by
  simp [main, h1, approved_nonempty_of_new w h4, h3, h4, h5]

/-- The transfer branch: caught-error count. -/
theorem main_transfer_errs (cfg : Config) (f : Faults) (w : World)
    (h1 : f.fetchHeadlinesFails = false) (h3 : f.fetchArticlesFails = false)
    (h4 : (newHeadlines w).isEmpty = false) (h5 : cfg.dryRun = false) :
    (main cfg f w).errs = (transferLoop f (newHeadlines w) w).errs := by
  simp [main, h1, approved_nonempty_of_new w h4, h3, h4, h5]

/-- The transfer branch: calls issued. -/
theorem main_transfer_calls (cfg : Config) (f : Faults) (w : World)
    (h1 : f.fetchHeadlinesFails = false) (h3 : f.fetchArticlesFails = false)
    (h4 : (newHeadlines w).isEmpty = false) (h5 : cfg.dryRun = false) :
    (main cfg f w).calls =
      [ApiCall.getHeadlines, ApiCall.getArticles] ++
        (transferLoop f (newHeadlines w) w).calls ++
        (if (transferLoop f (newHeadlines w) w).created.isEmpty then []
         else (notify_discord cfg.discordWebhook f.discordFails
           (discordMessage (transferLoop f (newHeadlines w) w).created)).1) := by
  simp [main, h1, approved_nonempty_of_new w h4, h3, h4, h5]
  split <;> rfl

/-- The transfer branch: output events. -/
theorem main_transfer_outs (cfg : Config) (f : Faults) (w : World)
    (h1 : f.fetchHeadlinesFails = false) (h3 : f.fetchArticlesFails = false)
    (h4 : (newHeadlines w).isEmpty = false) (h5 : cfg.dryRun = false) :
    (main cfg f w).outs =
      ([Out.foundApproved (fetchApproved w).length] ++
        (if (skippedHeadlines w).isEmpty then []
         else [Out.skippedDuplicates (skippedHeadlines w).length])) ++
        (transferLoop f (newHeadlines w) w).outs ++
        [Out.summaryTransferred (transferLoop f (newHeadlines w) w).created.length] ++
        (if (skippedHeadlines w).isEmpty then []
         else [Out.summarySkipped (skippedHeadlines w).length]) ++
        (if (transferLoop f (newHeadlines w) w).created.isEmpty then []
         else (notify_discord cfg.discordWebhook f.discordFails
           (discordMessage (transferLoop f (newHeadlines w) w).created)).2) := by
  simp [main, h1, approved_nonempty_of_new w h4, h3, h4, h5]
  split <;> rfl

/-- The stuck-reconciliation branch: final world. -/
theorem main_stuck_world (cfg : Config) (f : Faults) (w : World)
    (h1 : f.fetchHeadlinesFails = false) (h3 : f.fetchArticlesFails = false)
    (h4 : (newHeadlines w).isEmpty = true) (hsk : (skippedHeadlines w).isEmpty = false)
    (h5 : cfg.dryRun = false) :
    (main cfg f w).world = (stuckLoop f (skippedHeadlines w) w).2.1 := by
  simp [main, h1, approved_nonempty_of_skipped w hsk, h3, h4, hsk, h5]

/-- The stuck-reconciliation branch: completion flag. -/
theorem main_stuck_ok (cfg : Config) (f : Faults) (w : World)
    (h1 : f.fetchHeadlinesFails = false) (h3 : f.fetchArticlesFails = false)
    (h4 : (newHeadlines w).isEmpty = true) (hsk : (skippedHeadlines w).isEmpty = false)
    (h5 : cfg.dryRun = false) :
    (main cfg f w).ok = (stuckLoop f (skippedHeadlines w) w).1 := by
  simp [main, h1, approved_nonempty_of_skipped w hsk, h3, h4, hsk, h5]

/-- The stuck-reconciliation branch: no Articles accumulate. -/
theorem main_stuck_created (cfg : Config) (f : Faults) (w : World)
    (h1 : f.fetchHeadlinesFails = false) (h3 : f.fetchArticlesFails = false)
    (h4 : (newHeadlines w).isEmpty = true) (hsk : (skippedHeadlines w).isEmpty = false)
    (h5 : cfg.dryRun = false) :
    (main cfg f w).created = [] := by
  simp [main, h1, approved_nonempty_of_skipped w hsk, h3, h4, hsk, h5]

/-- The stuck-reconciliation branch: calls issued. -/
theorem main_stuck_calls (cfg : Config) (f : Faults) (w : World)
    (h1 : f.fetchHeadlinesFails = false) (h3 : f.fetchArticlesFails = false)
    (h4 : (newHeadlines w).isEmpty = true) (hsk : (skippedHeadlines w).isEmpty = false)
    (h5 : cfg.dryRun = false) :
    (main cfg f w).calls =
      [ApiCall.getHeadlines, ApiCall.getArticles] ++
        (stuckLoop f (skippedHeadlines w) w).2.2 := by
  simp [main, h1, approved_nonempty_of_skipped w hsk, h3, h4, hsk, h5]

/-- All-duplicates in dry-run: no calls beyond the two reads, no change. -/
theorem main_dry_stuck_eq (cfg : Config) (f : Faults) (w : World)
    (h1 : f.fetchHeadlinesFails = false) (h3 : f.fetchArticlesFails = false)
    (h4 : (newHeadlines w).isEmpty = true) (hsk : (skippedHeadlines w).isEmpty = false)
    (h5 : cfg.dryRun = true) :
    main cfg f w = ⟨true, w, [], [ApiCall.getHeadlines, ApiCall.getArticles],
      [Out.foundApproved (fetchApproved w).length,
        Out.skippedDuplicates (skippedHeadlines w).length, Out.nothingToDo,
        Out.updatedStuck (skippedHeadlines w).length], 0⟩ := by
  simp [main, h1, approved_nonempty_of_skipped w hsk, h3, h4, hsk, h5]

/-- New rows in dry-run: preview only. -/
theorem main_dry_new_eq (cfg : Config) (f : Faults) (w : World)
    (h1 : f.fetchHeadlinesFails = false) (h3 : f.fetchArticlesFails = false)
    (h4 : (newHeadlines w).isEmpty = false) (h5 : cfg.dryRun = true) :
    main cfg f w = ⟨true, w, [], [ApiCall.getHeadlines, ApiCall.getArticles],
      ([Out.foundApproved (fetchApproved w).length] ++
        (if (skippedHeadlines w).isEmpty then []
         else [Out.skippedDuplicates (skippedHeadlines w).length])) ++
        [Out.dryRunPreview (newHeadlines w).length], 0⟩ := by
  simp [main, h1, approved_nonempty_of_new w h4, h3, h4, h5]

/-- Degenerate branch kept from the script's structure (`if skipped:` inside
`if not new_headlines:`): unreachable when the fetch is non-empty, but stated
for completeness. -/
theorem main_bothempty_eq (cfg : Config) (f : Faults) (w : World)
    (h1 : f.fetchHeadlinesFails = false) (h2 : (fetchApproved w).isEmpty = false)
    (h3 : f.fetchArticlesFails = false)
    (h4 : (newHeadlines w).isEmpty = true) (hsk : (skippedHeadlines w).isEmpty = true) :
    main cfg f w = ⟨true, w, [], [ApiCall.getHeadlines, ApiCall.getArticles],
      [Out.foundApproved (fetchApproved w).length, Out.nothingToDo], 0⟩ := by
  simp [main, h1, h2, h3, h4, hsk]

/- ### Further helpers -/

theorem bool_eq_false_of_ne_true {b : Bool} (h : ¬(b = true)) : b = false := by
  cases b
  · rfl
  · exact absurd rfl h

theorem ne_nil_of_isEmpty_false {α : Type} {l : List α} (h : l.isEmpty = false) :
    l ≠ [] := by
  intro hn; rw [hn] at h; cases h

theorem filter_isPost_nil (l : List ApiCall) (h : ∀ c ∈ l, c.isPost = false) :
    l.filter ApiCall.isPost = [] := by
  rw [List.filter_eq_nil_iff]
  intro c hc
  simp [h c hc]

/-- De-duplication keys only accumulate across the transfer loop. -/
theorem contains_existing_transfer (f : Faults) (recs : List HeadlineRec) (w : World)
    (x : String) (h : (get_existing_headline_ids w).contains x = true) :
    (get_existing_headline_ids (transferLoop f recs w).world).contains x = true := by
  rw [contains_iff] at h ⊢
  simp only [get_existing_headline_ids] at h ⊢
  rw [transferLoop_articles, hqIds_append]
  exact List.mem_append_left _ h

/-- The stuck loop leaves the de-duplication set unchanged. -/
theorem existing_stuck_eq (f : Faults) (recs : List HeadlineRec) (w : World) :
    get_existing_headline_ids (stuckLoop f recs w).2.1 = get_existing_headline_ids w := by
  simp only [get_existing_headline_ids]
  rw [stuckLoop_articles]

/-- After any fault-free non-dry run, every headline still carrying status
`approved` is covered by the de-duplication set of the final state. This is
the invariant that makes a second run create nothing. -/
theorem main_covers_approved (cfg : Config) (f : Faults) (w : World)
    (hdry : cfg.dryRun = false) (hff : faultFree f) :
    ∀ h ∈ (main cfg f w).world.headlines, h.fields.status = "approved" →
      (get_existing_headline_ids (main cfg f w).world).contains h.id = true := by
  obtain ⟨hf1, hf2, hcf, huf⟩ := hff
  cases h2 : (fetchApproved w).isEmpty with
  | true =>
    rw [main_empty_eq cfg f w hf1 h2]
    intro h hmem hst
    exfalso
    have hfa : h ∈ fetchApproved w := (mem_fetchApproved w h).mpr ⟨hmem, hst⟩
    rw [List.isEmpty_iff.mp h2] at hfa
    cases hfa
  | false =>
    cases h4 : (newHeadlines w).isEmpty with
    | true =>
      cases hsk : (skippedHeadlines w).isEmpty with
      | true =>
        exfalso
        obtain ⟨b, hb⟩ := List.exists_mem_of_ne_nil _ (ne_nil_of_isEmpty_false h2)
        by_cases hbc : (get_existing_headline_ids w).contains b.id = true
        · have hbs : b ∈ skippedHeadlines w := (mem_skippedHeadlines w b).mpr ⟨hb, hbc⟩
          rw [List.isEmpty_iff.mp hsk] at hbs
          cases hbs
        · have hbn : b ∈ newHeadlines w :=
            (mem_newHeadlines w b).mpr ⟨hb, bool_eq_false_of_ne_true hbc⟩
          rw [List.isEmpty_iff.mp h4] at hbn
          cases hbn
      | false =>
        intro h hmem hst
        rw [main_stuck_world cfg f w hf1 hf2 h4 hsk hdry] at hmem ⊢
        exfalso
        rcases stuckLoop_status_cases f _ w huf h hmem with hs | ⟨hmem2, hnone⟩
        · rw [hst] at hs
          exact absurd hs (by decide)
        · have hfa : h ∈ fetchApproved w := (mem_fetchApproved w h).mpr ⟨hmem2, hst⟩
          by_cases hc : (get_existing_headline_ids w).contains h.id = true
          · exact hnone h ((mem_skippedHeadlines w h).mpr ⟨hfa, hc⟩) rfl
          · have hn : h ∈ newHeadlines w :=
              (mem_newHeadlines w h).mpr ⟨hfa, bool_eq_false_of_ne_true hc⟩
            rw [List.isEmpty_iff.mp h4] at hn
            cases hn
    | false =>
      intro h hmem hst
      rw [main_transfer_world cfg f w hf1 hf2 h4 hdry] at hmem ⊢
      rcases transferLoop_status_cases f _ w hcf huf h hmem with hs | ⟨hmem2, hnone⟩
      · rw [hst] at hs
        exact absurd hs (by decide)
      · have hfa : h ∈ fetchApproved w := (mem_fetchApproved w h).mpr ⟨hmem2, hst⟩
        by_cases hc : (get_existing_headline_ids w).contains h.id = true
        · exact contains_existing_transfer f _ w h.id hc
        · have hn : h ∈ newHeadlines w :=
            (mem_newHeadlines w h).mpr ⟨hfa, bool_eq_false_of_ne_true hc⟩
          exact absurd rfl (hnone h hn)

/-- A fault-free non-dry run over a state whose approved rows are all covered
by the de-duplication set appends no Articles row and accumulates no created
Article. -/
theorem covered_run_creates_nothing (cfg : Config) (f : Faults) (w : World)
    (hdry : cfg.dryRun = false) (hff : faultFree f)
    (hcov : ∀ h ∈ w.headlines, h.fields.status = "approved" →
      (get_existing_headline_ids w).contains h.id = true) :
    (main cfg f w).world.articles = w.articles ∧ (main cfg f w).created = [] := by
  obtain ⟨hf1, hf2, hcf, huf⟩ := hff
  cases h2 : (fetchApproved w).isEmpty with
  | true =>
    rw [main_empty_eq cfg f w hf1 h2]
    exact ⟨rfl, rfl⟩
  | false =>
    have h4 : (newHeadlines w).isEmpty = true := by
      have hnil : newHeadlines w = [] := by
        rw [newHeadlines, List.filter_eq_nil_iff]
        intro r hr hcond
        have happr := (mem_fetchApproved w r).mp hr
        have hc := hcov r happr.1 happr.2
        simp at hcond
        exact hcond ((contains_iff _ _).mp hc)
      rw [hnil]
      rfl
    have hsk : (skippedHeadlines w).isEmpty = false := by
      obtain ⟨b, hb⟩ := List.exists_mem_of_ne_nil _ (ne_nil_of_isEmpty_false h2)
      have happr := (mem_fetchApproved w b).mp hb
      have hbs : b ∈ skippedHeadlines w :=
        (mem_skippedHeadlines w b).mpr ⟨hb, hcov b happr.1 happr.2⟩
      exact isEmpty_false_of_mem hbs
    refine ⟨?_, main_stuck_created cfg f w hf1 hf2 h4 hsk hdry⟩
    rw [main_stuck_world cfg f w hf1 hf2 h4 hsk hdry, stuckLoop_articles]

/-- The stuck-reconciliation branch: no caught errors. -/
theorem main_stuck_errs (cfg : Config) (f : Faults) (w : World)
    (h1 : f.fetchHeadlinesFails = false) (h3 : f.fetchArticlesFails = false)
    (h4 : (newHeadlines w).isEmpty = true) (hsk : (skippedHeadlines w).isEmpty = false)
    (h5 : cfg.dryRun = false) :
    (main cfg f w).errs = 0 := by
  simp [main, h1, approved_nonempty_of_skipped w hsk, h3, h4, hsk, h5]

/-- The post calls of a run: present iff a webhook is configured and at least
one Article accumulated, and then carrying the formatted message. -/
theorem post_calls_characterization (cfg : Config) (f : Faults) (w : World) :
    (main cfg f w).calls.filter ApiCall.isPost =
      (if cfg.discordWebhook.isSome ∧ (main cfg f w).created ≠ [] then
        [ApiCall.postDiscord (discordMessage (main cfg f w).created)]
      else []) := by
  cases h1 : f.fetchHeadlinesFails with
  | true => rw [main_fetchfail_eq cfg f w h1]; simp [ApiCall.isPost]
  | false =>
    cases h2 : (fetchApproved w).isEmpty with
    | true => rw [main_empty_eq cfg f w h1 h2]; simp [ApiCall.isPost]
    | false =>
      cases h3 : f.fetchArticlesFails with
      | true => rw [main_artfail_eq cfg f w h1 h2 h3]; simp [ApiCall.isPost]
      | false =>
        cases h4 : (newHeadlines w).isEmpty with
        | true =>
          cases hsk : (skippedHeadlines w).isEmpty with
          | true => rw [main_bothempty_eq cfg f w h1 h2 h3 h4 hsk]; simp [ApiCall.isPost]
          | false =>
            cases h5 : cfg.dryRun with
            | true => rw [main_dry_stuck_eq cfg f w h1 h3 h4 hsk h5]; simp [ApiCall.isPost]
            | false =>
              rw [main_stuck_calls cfg f w h1 h3 h4 hsk h5,
                main_stuck_created cfg f w h1 h3 h4 hsk h5,
                List.filter_append, filter_isPost_nil _ (stuckLoop_no_post f _ w)]
              simp [ApiCall.isPost]
        | false =>
          cases h5 : cfg.dryRun with
          | true => rw [main_dry_new_eq cfg f w h1 h3 h4 h5]; simp [ApiCall.isPost]
          | false =>
            rw [main_transfer_calls cfg f w h1 h3 h4 h5,
              main_transfer_created cfg f w h1 h3 h4 h5,
              List.filter_append, List.filter_append,
              filter_isPost_nil _ (transferLoop_no_post f _ w)]
            cases hcr : (transferLoop f (newHeadlines w) w).created with
            | nil => simp [ApiCall.isPost]
            | cons c cs =>
              cases hw : cfg.discordWebhook with
              | none => simp [notify_discord, ApiCall.isPost]
              | some u => simp [notify_discord, ApiCall.isPost]

/-- The Discord fault flag influences nothing but the notification itself:
completion flag, tables, created list and error count are unchanged. -/
theorem discordFails_outcome_irrelevant (cfg : Config) (hf af : Bool)
    (cf uf : List String) (d1 d2 : Bool) (w : World) :
    (main cfg ⟨hf, af, cf, uf, d1⟩ w).ok = (main cfg ⟨hf, af, cf, uf, d2⟩ w).ok ∧
    (main cfg ⟨hf, af, cf, uf, d1⟩ w).world = (main cfg ⟨hf, af, cf, uf, d2⟩ w).world ∧
    (main cfg ⟨hf, af, cf, uf, d1⟩ w).created =
      (main cfg ⟨hf, af, cf, uf, d2⟩ w).created ∧
    (main cfg ⟨hf, af, cf, uf, d1⟩ w).errs = (main cfg ⟨hf, af, cf, uf, d2⟩ w).errs := by
  cases hf with
  | true =>
    rw [main_fetchfail_eq cfg _ w rfl, main_fetchfail_eq cfg _ w rfl]
    exact ⟨rfl, rfl, rfl, rfl⟩
  | false =>
    cases h2 : (fetchApproved w).isEmpty with
    | true =>
      rw [main_empty_eq cfg _ w rfl h2, main_empty_eq cfg _ w rfl h2]
      exact ⟨rfl, rfl, rfl, rfl⟩
    | false =>
      cases af with
      | true =>
        rw [main_artfail_eq cfg _ w rfl h2 rfl, main_artfail_eq cfg _ w rfl h2 rfl]
        exact ⟨rfl, rfl, rfl, rfl⟩
      | false =>
        cases h4 : (newHeadlines w).isEmpty with
        | true =>
          cases hsk : (skippedHeadlines w).isEmpty with
          | true =>
            rw [main_bothempty_eq cfg _ w rfl h2 rfl h4 hsk,
              main_bothempty_eq cfg _ w rfl h2 rfl h4 hsk]
            exact ⟨rfl, rfl, rfl, rfl⟩
          | false =>
            cases h5 : cfg.dryRun with
            | true =>
              rw [main_dry_stuck_eq cfg _ w rfl rfl h4 hsk h5,
                main_dry_stuck_eq cfg _ w rfl rfl h4 hsk h5]
              exact ⟨rfl, rfl, rfl, rfl⟩
            | false =>
              refine ⟨?_, ?_, ?_, ?_⟩
              · rw [main_stuck_ok cfg _ w rfl rfl h4 hsk h5,
                  main_stuck_ok cfg _ w rfl rfl h4 hsk h5,
                  stuckLoop_discord_irrel false false cf uf d1 d2]
              · rw [main_stuck_world cfg _ w rfl rfl h4 hsk h5,
                  main_stuck_world cfg _ w rfl rfl h4 hsk h5,
                  stuckLoop_discord_irrel false false cf uf d1 d2]
              · rw [main_stuck_created cfg _ w rfl rfl h4 hsk h5,
                  main_stuck_created cfg _ w rfl rfl h4 hsk h5]
              · rw [main_stuck_errs cfg _ w rfl rfl h4 hsk h5,
                  main_stuck_errs cfg _ w rfl rfl h4 hsk h5]
        | false =>
          cases h5 : cfg.dryRun with
          | true =>
            rw [main_dry_new_eq cfg _ w rfl rfl h4 h5,
              main_dry_new_eq cfg _ w rfl rfl h4 h5]
            exact ⟨rfl, rfl, rfl, rfl⟩
          | false =>
            refine ⟨?_, ?_, ?_, ?_⟩
            · rw [main_transfer_ok cfg _ w rfl rfl h4 h5,
                main_transfer_ok cfg _ w rfl rfl h4 h5]
            · rw [main_transfer_world cfg _ w rfl rfl h4 h5,
                main_transfer_world cfg _ w rfl rfl h4 h5,
                transferLoop_discord_irrel false false cf uf d1 d2]
            · rw [main_transfer_created cfg _ w rfl rfl h4 h5,
                main_transfer_created cfg _ w rfl rfl h4 h5,
                transferLoop_discord_irrel false false cf uf d1 d2]
            · rw [main_transfer_errs cfg _ w rfl rfl h4 h5,
                main_transfer_errs cfg _ w rfl rfl h4 h5,
                transferLoop_discord_irrel false false cf uf d1 d2]

/- ### Claim theorems -/

/-- C1: for every fetched Headline row with status `approved` whose identifier
is not among the `headline_queue_id` values already in Articles, a single
non-dry, fault-free run creates exactly one Article row, with
`article_title` / `prompt` / `seo_keyword` / `angle` / `subject` / `batch_id`
copied from the headline, `headline_queue_id` set to the source row's id,
`pipeline_status` set to `queued`, `target_word_count` defaulting to 1000 and
`priority_order` defaulting to 1 when unset. -/
theorem transfer_creates_exactly_one_article (cfg : Config) (f : Faults)
    (w : World) (rec : HeadlineRec)
    (hdry : cfg.dryRun = false) (hff : faultFree f)
    (hmem : rec ∈ fetchApproved w) (hid : rec.id ≠ "")
    (hnew : (get_existing_headline_ids w).contains rec.id = false)
    (hnd : ((fetchApproved w).map HeadlineRec.id).Nodup) :
    ((main cfg f w).world.articles.filter
        (fun a => a.fields.headline_queue_id == rec.id)).map ArticleRec.fields =
      [{ article_title := rec.fields.headline.getD ""
         prompt := rec.fields.article_prompt.getD ""
         seo_keyword := rec.fields.seo_keyword.getD ""
         angle := rec.fields.angle.getD ""
         subject := rec.fields.subject.getD ""
         batch_id := rec.fields.batch_id.getD ""
         target_word_count := rec.fields.target_word_count.getD 1000
         headline_queue_id := rec.id
         pipeline_status := "queued"
         priority_order := rec.fields.priority_order.getD 1 }] := by
  obtain ⟨hf1, hf2, hcf, huf⟩ := hff
  have hmemNew : rec ∈ newHeadlines w := (mem_newHeadlines w rec).mpr ⟨hmem, hnew⟩
  have h4 : (newHeadlines w).isEmpty = false := isEmpty_false_of_mem hmemNew
  rw [main_transfer_world cfg f w hf1 hf2 h4 hdry, transferLoop_articles,
    createdArticles_ff f hcf, List.filter_append, List.map_append]
  have hpre : w.articles.filter (fun a => a.fields.headline_queue_id == rec.id) = [] := by
    rw [List.filter_eq_nil_iff]
    intro a ha hcond
    have heq : a.fields.headline_queue_id = rec.id := by simpa using hcond
    have hne : (a.fields.headline_queue_id != "") = true := by simp [heq, hid]
    have hmm : rec.id ∈ get_existing_headline_ids w := by
      rw [← heq]
      exact List.mem_map_of_mem _ (List.mem_filter.mpr ⟨ha, hne⟩)
    rw [(contains_iff _ _).mpr hmm] at hnew
    cases hnew
  have hndNew : ((newHeadlines w).map HeadlineRec.id).Nodup :=
    List.Nodup.sublist (List.Sublist.map _ (List.filter_sublist _)) hnd
  rw [hpre, mkArticles_filter_map, filter_id_single _ rec hmemNew hndNew]
  rfl

theorem transfer_creates_exactly_one_article_witness :
    ((main cfgStd ffNoFault wOne).world.articles.filter
        (fun a => a.fields.headline_queue_id == (exHeadline "A" "approved").id)).map
        ArticleRec.fields =
      [{ article_title := (exHeadline "A" "approved").fields.headline.getD ""
         prompt := (exHeadline "A" "approved").fields.article_prompt.getD ""
         seo_keyword := (exHeadline "A" "approved").fields.seo_keyword.getD ""
         angle := (exHeadline "A" "approved").fields.angle.getD ""
         subject := (exHeadline "A" "approved").fields.subject.getD ""
         batch_id := (exHeadline "A" "approved").fields.batch_id.getD ""
         target_word_count := (exHeadline "A" "approved").fields.target_word_count.getD 1000
         headline_queue_id := (exHeadline "A" "approved").id
         pipeline_status := "queued"
         priority_order := (exHeadline "A" "approved").fields.priority_order.getD 1 }] :=
  transfer_creates_exactly_one_article cfgStd ffNoFault wOne (exHeadline "A" "approved")
    rfl ⟨rfl, rfl, rfl, rfl⟩ (by decide) (by decide) (by decide) (by decide)

/-- C2: for every headline row whose per-row transfer succeeds (its create
and update calls both return), even under faults on other rows, the final
state holds an Article whose `headline_queue_id` is the headline's id, and
every headline row with that id carries status `sent_to_news_agent` and
`articles_record_id` equal to that Article's id: the cross-reference pair is
bidirectionally consistent. -/
theorem cross_reference_bidirectional (cfg : Config) (f : Faults) (w : World)
    (rec : HeadlineRec)
    (hdry : cfg.dryRun = false)
    (hf1 : f.fetchHeadlinesFails = false) (hf2 : f.fetchArticlesFails = false)
    (hmem : rec ∈ fetchApproved w)
    (hnew : (get_existing_headline_ids w).contains rec.id = false)
    (hcf : rec.id ∉ f.createFailIds) (huf : rec.id ∉ f.updateFailIds)
    (hnd : ((fetchApproved w).map HeadlineRec.id).Nodup) :
    ∃ aid,
      (∃ a ∈ (main cfg f w).world.articles,
        a.id = aid ∧ a.fields.headline_queue_id = rec.id) ∧
      (∃ h ∈ (main cfg f w).world.headlines, h.id = rec.id) ∧
      (∀ h ∈ (main cfg f w).world.headlines, h.id = rec.id →
        h.fields.status = "sent_to_news_agent" ∧
          h.fields.articles_record_id = some aid) := by
  have hmemNew : rec ∈ newHeadlines w := (mem_newHeadlines w rec).mpr ⟨hmem, hnew⟩
  have h4 : (newHeadlines w).isEmpty = false := isEmpty_false_of_mem hmemNew
  rw [main_transfer_world cfg f w hf1 hf2 h4 hdry]
  have hndNew : ((newHeadlines w).map HeadlineRec.id).Nodup :=
    List.Nodup.sublist (List.Sublist.map _ (List.filter_sublist _)) hnd
  have hpresent : rec.id ∈ w.headlines.map HeadlineRec.id :=
    List.mem_map_of_mem _ ((mem_fetchApproved w rec).mp hmem).1
  obtain ⟨aid, ha, hmap, hall⟩ :=
    transferLoop_row_success f rec (newHeadlines w) w hmemNew hcf huf hndNew hpresent
  refine ⟨aid, ha, ?_, hall⟩
  obtain ⟨h, hh, hid⟩ := List.mem_map.mp hmap
  exact ⟨h, hh, hid⟩

theorem cross_reference_bidirectional_witness :
    ∃ aid,
      (∃ a ∈ (main cfgStd ffNoFault wOne).world.articles,
        a.id = aid ∧ a.fields.headline_queue_id = (exHeadline "A" "approved").id) ∧
      (∃ h ∈ (main cfgStd ffNoFault wOne).world.headlines,
        h.id = (exHeadline "A" "approved").id) ∧
      (∀ h ∈ (main cfgStd ffNoFault wOne).world.headlines,
        h.id = (exHeadline "A" "approved").id →
        h.fields.status = "sent_to_news_agent" ∧
          h.fields.articles_record_id = some aid) :=
  cross_reference_bidirectional cfgStd ffNoFault wOne (exHeadline "A" "approved")
    rfl rfl rfl (by decide) (by decide) (by decide) (by decide) (by decide)

/-- C3: running the job twice with no change between runs creates zero
additional Article rows on the second run: the first (fault-free, non-dry)
run leaves every still-approved headline covered by the de-duplication set,
so the second run's partition has no new rows and the job is idempotent. -/
theorem second_run_creates_no_articles (cfg : Config) (f : Faults) (w : World)
    (hdry : cfg.dryRun = false) (hff : faultFree f) :
    (main cfg f (main cfg f w).world).world.articles =
      (main cfg f w).world.articles ∧
    (main cfg f (main cfg f w).world).created = [] :=
  covered_run_creates_nothing cfg f (main cfg f w).world hdry hff
    (main_covers_approved cfg f w hdry hff)

theorem second_run_creates_no_articles_witness :
    (main cfgStd ffNoFault (main cfgStd ffNoFault wOne).world).world.articles =
      (main cfgStd ffNoFault wOne).world.articles ∧
    (main cfgStd ffNoFault (main cfgStd ffNoFault wOne).world).created = [] :=
  second_run_creates_no_articles cfgStd ffNoFault wOne rfl ⟨rfl, rfl, rfl, rfl⟩

/-- C10: when the Step-1 fetch succeeds but returns zero approved rows, the
job returns immediately: no Articles read, no write, no notification, the
state untouched — regardless of the dry-run flag. -/
theorem empty_fetch_returns_immediately (cfg : Config) (f : Faults) (w : World)
    (h1 : f.fetchHeadlinesFails = false) (h2 : fetchApproved w = []) :
    main cfg f w =
      ⟨true, w, [], [ApiCall.getHeadlines], [Out.noApproved], 0⟩ :=
  main_empty_eq cfg f w h1 (by rw [h2]; rfl)

theorem empty_fetch_returns_immediately_witness :
    main cfgDry ffNoFault wNoApproved =
      ⟨true, wNoApproved, [], [ApiCall.getHeadlines], [Out.noApproved], 0⟩ :=
  empty_fetch_returns_immediately cfgDry ffNoFault wNoApproved rfl (by decide)

/-- C4 counterexample: the claim says every per-row create/update error, on
any path, is caught and the remaining rows proceed. On the stuck-row
reconciliation path the update call is not wrapped in try/except: with two
stuck rows A and B and an update fault on A, the run aborts (`ok = false`)
and B is left still `approved` — processing does not continue. -/
theorem stuck_path_error_aborts_run :
    (main cfgStd fUpdA wStuck2).ok = false ∧
    ((main cfgStd fUpdA wStuck2).world.headlines.filter
        (fun h => h.id == "B")).map (fun h => h.fields.status) = ["approved"] := by
  decide

/-- C4 (amended): on the main transfer path, every per-row create or update
error is caught and the loop continues: the run completes, the caught-error
count equals the number of failing rows, and every row whose two calls
succeed is still transferred. (On the stuck-row reconciliation path, by
contrast, an update error propagates and aborts the run.) -/
theorem transfer_path_errors_caught (cfg : Config) (f : Faults) (w : World)
    (hdry : cfg.dryRun = false) (hf1 : f.fetchHeadlinesFails = false)
    (hf2 : f.fetchArticlesFails = false)
    (hnew : (newHeadlines w).isEmpty = false) :
    (main cfg f w).ok = true ∧
    (main cfg f w).errs = ((newHeadlines w).filter (fun r =>
        f.createFailIds.contains r.id || f.updateFailIds.contains r.id)).length ∧
    (main cfg f w).created.length = ((newHeadlines w).filter (fun r =>
        !f.createFailIds.contains r.id && !f.updateFailIds.contains r.id)).length := by
  refine ⟨main_transfer_ok cfg f w hf1 hf2 hnew hdry, ?_, ?_⟩
  · rw [main_transfer_errs cfg f w hf1 hf2 hnew hdry, transferLoop_errs]
  · rw [main_transfer_created cfg f w hf1 hf2 hnew hdry, transferLoop_created_length]

theorem transfer_path_errors_caught_witness :
    (main cfgStd fCreateA wTwoNew).ok = true ∧
    (main cfgStd fCreateA wTwoNew).errs = ((newHeadlines wTwoNew).filter (fun r =>
        fCreateA.createFailIds.contains r.id ||
          fCreateA.updateFailIds.contains r.id)).length ∧
    (main cfgStd fCreateA wTwoNew).created.length =
      ((newHeadlines wTwoNew).filter (fun r =>
        !fCreateA.createFailIds.contains r.id &&
          !fCreateA.updateFailIds.contains r.id)).length :=
  transfer_path_errors_caught cfgStd fCreateA wTwoNew rfl rfl rfl (by decide)

/-- C5: with the dry-run flag set, no execution path issues a create or
update call, and every table is left exactly as it was. -/
theorem dry_run_makes_no_writes (cfg : Config) (f : Faults) (w : World)
    (hdry : cfg.dryRun = true) :
    (main cfg f w).world = w ∧
    (main cfg f w).calls.filter ApiCall.isWrite = [] := by
  cases h1 : f.fetchHeadlinesFails with
  | true =>
    rw [main_fetchfail_eq cfg f w h1]
    exact ⟨rfl, rfl⟩
  | false =>
    cases h2 : (fetchApproved w).isEmpty with
    | true =>
      rw [main_empty_eq cfg f w h1 h2]
      exact ⟨rfl, rfl⟩
    | false =>
      cases h3 : f.fetchArticlesFails with
      | true =>
        rw [main_artfail_eq cfg f w h1 h2 h3]
        exact ⟨rfl, rfl⟩
      | false =>
        cases h4 : (newHeadlines w).isEmpty with
        | true =>
          cases hsk : (skippedHeadlines w).isEmpty with
          | true =>
            rw [main_bothempty_eq cfg f w h1 h2 h3 h4 hsk]
            exact ⟨rfl, rfl⟩
          | false =>
            rw [main_dry_stuck_eq cfg f w h1 h3 h4 hsk hdry]
            exact ⟨rfl, rfl⟩
        | false =>
          rw [main_dry_new_eq cfg f w h1 h3 h4 hdry]
          exact ⟨rfl, rfl⟩

theorem dry_run_makes_no_writes_witness :
    (main cfgDry ffNoFault wMix).world = wMix ∧
    (main cfgDry ffNoFault wMix).calls.filter ApiCall.isWrite = [] :=
  dry_run_makes_no_writes cfgDry ffNoFault wMix rfl

/-- C6 counterexample: the claim says an already-transferred approved
headline has its status repaired whether or not new headlines are present in
the same run. In `wMix`, headline A is already transferred and B is new; the
non-dry fault-free run takes the transfer branch and leaves A still
`approved` — the repair only happens when no new rows exist at all. -/
theorem stuck_row_not_repaired_with_new_rows :
    ((main cfgStd ffNoFault wMix).world.headlines.filter
        (fun h => h.id == "A")).map (fun h => h.fields.status) = ["approved"] := by
  decide

/-- C6 (amended): for an approved headline already present as an Articles
`headline_queue_id`, a non-dry fault-free run never creates another Article
for it; and its status is repaired to `sent_to_news_agent` only when the run
finds no new headline at all (the script's reconciliation sits inside the
`if not new_headlines` branch). -/
theorem stuck_repair_only_when_no_new_rows (cfg : Config) (f : Faults)
    (w : World) (rec : HeadlineRec)
    (hdry : cfg.dryRun = false) (hff : faultFree f)
    (hmem : rec ∈ fetchApproved w)
    (hdup : (get_existing_headline_ids w).contains rec.id = true) :
    (main cfg f w).world.articles.filter
        (fun a => a.fields.headline_queue_id == rec.id) =
      w.articles.filter (fun a => a.fields.headline_queue_id == rec.id) ∧
    ((∀ r ∈ fetchApproved w, (get_existing_headline_ids w).contains r.id = true) →
      (main cfg f w).ok = true ∧
      ∀ h ∈ (main cfg f w).world.headlines, h.id = rec.id →
        h.fields.status = "sent_to_news_agent") := by
  obtain ⟨hf1, hf2, hcf, huf⟩ := hff
  have hskmem : rec ∈ skippedHeadlines w := (mem_skippedHeadlines w rec).mpr ⟨hmem, hdup⟩
  have hsk : (skippedHeadlines w).isEmpty = false := isEmpty_false_of_mem hskmem
  cases h4 : (newHeadlines w).isEmpty with
  | true =>
    constructor
    · rw [main_stuck_world cfg f w hf1 hf2 h4 hsk hdry, stuckLoop_articles]
    · intro _
      constructor
      · rw [main_stuck_ok cfg f w hf1 hf2 h4 hsk hdry]
        exact stuckLoop_ok f _ w huf
      · rw [main_stuck_world cfg f w hf1 hf2 h4 hsk hdry]
        exact stuckLoop_repairs f _ w huf rec hskmem
  | false =>
    constructor
    · rw [main_transfer_world cfg f w hf1 hf2 h4 hdry, transferLoop_articles,
        createdArticles_ff f hcf, List.filter_append]
      have hnil : (mkArticles w.counter (newHeadlines w)).filter
          (fun a => a.fields.headline_queue_id == rec.id) = [] := by
        refine mkArticles_filter_nil _ _ _ (fun r hr he => ?_)
        have hrf := ((mem_newHeadlines w r).mp hr).2
        rw [he, hdup] at hrf
        cases hrf
      rw [hnil, List.append_nil]
    · intro hall
      exfalso
      obtain ⟨b, hb⟩ := List.exists_mem_of_ne_nil _ (ne_nil_of_isEmpty_false h4)
      have hbf := ((mem_newHeadlines w b).mp hb).2
      rw [hall b ((mem_newHeadlines w b).mp hb).1] at hbf
      cases hbf

theorem stuck_repair_only_when_no_new_rows_witness :
    (main cfgStd ffNoFault wStuck2).world.articles.filter
        (fun a => a.fields.headline_queue_id == (exHeadline "A" "approved").id) =
      wStuck2.articles.filter
        (fun a => a.fields.headline_queue_id == (exHeadline "A" "approved").id) ∧
    ((∀ r ∈ fetchApproved wStuck2,
        (get_existing_headline_ids wStuck2).contains r.id = true) →
      (main cfgStd ffNoFault wStuck2).ok = true ∧
      ∀ h ∈ (main cfgStd ffNoFault wStuck2).world.headlines,
        h.id = (exHeadline "A" "approved").id →
        h.fields.status = "sent_to_news_agent") :=
  stuck_repair_only_when_no_new_rows cfgStd ffNoFault wStuck2
    (exHeadline "A" "approved") rfl ⟨rfl, rfl, rfl, rfl⟩ (by decide) (by decide)

/-- C7: `airtable_get` follows the pagination cursor to exhaustion,
accumulating all pages' records in order; the first failing page request
propagates as an error; and a read failure of either table aborts the run
with no write call attempted and the tables untouched. -/
theorem pagination_and_read_failure_aborts :
    (∀ (α : Type) (pss : List (List α)),
      airtable_get (pss.map Except.ok) = Except.ok pss.flatten) ∧
    (∀ (α : Type) (pss : List (List α)) (e : String)
      (rest : List (Except String (List α))),
      airtable_get (pss.map Except.ok ++ Except.error e :: rest) = Except.error e) ∧
    (∀ (cfg : Config) (f : Faults) (w : World), f.fetchHeadlinesFails = true →
      (main cfg f w).ok = false ∧ (main cfg f w).calls.filter ApiCall.isWrite = [] ∧
        (main cfg f w).world = w) ∧
    (∀ (cfg : Config) (f : Faults) (w : World), f.fetchHeadlinesFails = false →
      f.fetchArticlesFails = true → (fetchApproved w).isEmpty = false →
      (main cfg f w).ok = false ∧ (main cfg f w).calls.filter ApiCall.isWrite = [] ∧
        (main cfg f w).world = w) := by
  refine ⟨?_, ?_, ?_, ?_⟩
  · intro α pss
    induction pss with
    | nil => rfl
    | cons p ps ih => simp [airtable_get, ih]
  · intro α pss e rest
    induction pss with
    | nil => rfl
    | cons p ps ih => simp [airtable_get, ih]
  · intro cfg f w h1
    rw [main_fetchfail_eq cfg f w h1]
    exact ⟨rfl, rfl, rfl⟩
  · intro cfg f w h1 h3 h2
    rw [main_artfail_eq cfg f w h1 h2 h3]
    exact ⟨rfl, rfl, rfl⟩

theorem pagination_and_read_failure_aborts_witness :
    airtable_get ([[1], [2, 3]].map Except.ok) = Except.ok [1, 2, 3] ∧
    airtable_get ([[1]].map Except.ok ++ Except.error "boom" :: [Except.ok [2]]) =
      Except.error "boom" ∧
    (main cfgStd fFetchH wOne).ok = false ∧
    (main cfgStd fFetchA wOne).ok = false :=
  ⟨pagination_and_read_failure_aborts.1 Nat [[1], [2, 3]],
    pagination_and_read_failure_aborts.2.1 Nat [[1]] "boom" [Except.ok [2]],
    (pagination_and_read_failure_aborts.2.2.1 cfgStd fFetchH wOne rfl).1,
    (pagination_and_read_failure_aborts.2.2.2 cfgStd fFetchA wOne rfl rfl
      (by decide)).1⟩

/-- C8 counterexample: a run whose fetch returns zero approved rows completes
without fatal error yet prints only the "nothing to transfer" line — no
structured summary reporting transferred / duplicate-skipped counts is
emitted, contradicting the claim that such a summary appears on every
non-fatal run. -/
theorem no_summary_on_empty_fetch :
    (main cfgStd ffNoFault wNoApproved).ok = true ∧
    (main cfgStd ffNoFault wNoApproved).outs = [Out.noApproved] := by
  decide

/-- C8 (amended): the structured summary is printed exactly on runs that
reach the transfer step (reads succeed, at least one new headline, not a dry
run): it reports the transferred count and, when duplicates were skipped,
the skipped count. Per-row errors are logged as they occur but no error
count appears in the summary; empty-fetch runs, dry runs and stuck-only runs
print other messages instead. -/
theorem summary_on_transfer_path_only (cfg : Config) (f : Faults) (w : World)
    (hdry : cfg.dryRun = false) (hf1 : f.fetchHeadlinesFails = false)
    (hf2 : f.fetchArticlesFails = false)
    (hnew : (newHeadlines w).isEmpty = false) :
    Out.summaryTransferred (main cfg f w).created.length ∈ (main cfg f w).outs ∧
    ((skippedHeadlines w).isEmpty = false →
      Out.summarySkipped (skippedHeadlines w).length ∈ (main cfg f w).outs) := by
  rw [main_transfer_outs cfg f w hf1 hf2 hnew hdry,
    main_transfer_created cfg f w hf1 hf2 hnew hdry]
  constructor
  · simp
  · intro hsk
    simp [hsk]

theorem summary_on_transfer_path_only_witness :
    Out.summaryTransferred (main cfgStd ffNoFault wMix).created.length ∈
      (main cfgStd ffNoFault wMix).outs ∧
    ((skippedHeadlines wMix).isEmpty = false →
      Out.summarySkipped (skippedHeadlines wMix).length ∈
        (main cfgStd ffNoFault wMix).outs) :=
  summary_on_transfer_path_only cfgStd ffNoFault wMix rfl rfl rfl (by decide)

/-- C9: a Discord post is issued iff a webhook target is configured and at
least one Article was created during the run, and its message is the
formatted list of the created Articles' titles; a failure of the post is
swallowed and changes nothing in the run's outcome (completion flag, tables,
created list, error count); with no target configured the post is skipped. -/
theorem notification_iff_configured_and_created (cfg : Config) (f : Faults)
    (w : World) :
    ((main cfg f w).calls.filter ApiCall.isPost =
      (if cfg.discordWebhook.isSome ∧ (main cfg f w).created ≠ [] then
        [ApiCall.postDiscord (discordMessage (main cfg f w).created)]
      else [])) ∧
    (∀ b : Bool,
      (main cfg { f with discordFails := b } w).ok = (main cfg f w).ok ∧
      (main cfg { f with discordFails := b } w).world = (main cfg f w).world ∧
      (main cfg { f with discordFails := b } w).created = (main cfg f w).created ∧
      (main cfg { f with discordFails := b } w).errs = (main cfg f w).errs) :=
  ⟨post_calls_characterization cfg f w, fun b =>
    discordFails_outcome_irrelevant cfg f.fetchHeadlinesFails f.fetchArticlesFails
      f.createFailIds f.updateFailIds b f.discordFails w⟩

end TransferHeadlines
